import Mathlib

/-!
Verification of the hubmapconsortium DRS service (app.py and
utils/sync_drs.py) against its natural-language specification.

The Python code is shallowly embedded: registry tables become lists of
records, SQL statements become pure list operations, and the MySQL
connection's commit/rollback protocol becomes explicit state passing.
Python floats appearing in the size codec are modelled by exact rational
arithmetic on scaled integers; for the dyadic quotients arising here
(an integer divided by a power of two) Python's float arithmetic is
exact for numerators below 2 ^ 53, so the model agrees with the code on
that whole range.  MySQL's ROUND is modelled as rounding half away from
zero of the exact quotient.
-/

/-- Fuel-driven digit rendering; the fuel only bounds the recursion depth
so that the definition is structural and kernel-reducible. -/
def renderNatCore : Nat → Nat → List Char
  | 0, _ => []
  | fuel + 1, n =>
    if n < 10 then [Nat.digitChar n]
    else renderNatCore fuel (n / 10) ++ [Nat.digitChar (n % 10)]

/-- Decimal digit characters of a natural number, most significant first;
models Python str(int) for non-negative integers. -/
def renderNat (n : Nat) : List Char := renderNatCore (n + 1) n

/-- Numeric value of a digit character. -/
def charVal (c : Char) : Nat := c.toNat - '0'.toNat

/-- Parse a non-empty all-digit character list as a natural number;
models Python int-literal parsing inside float(). -/
def parseNatDigits (cs : List Char) : Option Nat :=
  if cs ≠ [] ∧ cs.all (fun c => c.isDigit) then
    some (cs.foldl (fun a c => 10 * a + charVal c) 0)
  else none

/-- Parse an unsigned decimal numeral (digits, optionally one point) into
a scaled integer: the result (n, k) denotes the rational n / 10 ^ k.
Models Python float() restricted to plain decimal numerals, which is the
only shape the repository ever feeds it. -/
def parseUnsignedDec (cs : List Char) : Option (Nat × Nat) :=
  let intPart := cs.takeWhile (fun c => c != '.')
  let rest := cs.dropWhile (fun c => c != '.')
  match rest with
  | [] => (parseNatDigits intPart).map (fun n => (n, 0))
  | _ :: frac =>
    if frac.any (fun c => c == '.') then none
    else if intPart = [] ∧ frac = [] then none
    else
      match (if intPart = [] then some 0 else parseNatDigits intPart),
            (if frac = [] then some 0 else parseNatDigits frac) with
      | some iv, some fv => some (iv * 10 ^ frac.length + fv, frac.length)
      | _, _ => none

/-- Parse a decimal numeral with optional leading minus sign into a scaled
integer (n, k) denoting n / 10 ^ k. -/
def parseDecimal (cs : List Char) : Option (Int × Nat) :=
  if cs.headD ' ' = '-' then
    (parseUnsignedDec cs.tail).map (fun v => (-(v.1 : Int), v.2))
  else
    (parseUnsignedDec cs).map (fun v => ((v.1 : Int), v.2))

/-- Integer division truncating toward zero; models Python int() applied
to a (here exactly represented) float. -/
def truncDiv (a : Int) (b : Nat) : Int :=
  if 0 ≤ a then ((a.toNat / b : Nat) : Int)
  else -(((-a).toNat / b : Nat) : Int)

/-- Unit multipliers of pretty_to_bytes (app.py line 42); lookup of an
unrecognized letter defaults to 1 as units.get(unit, 1) does. -/
def unitMult (c : Char) : Nat :=
  if c = 'B' then 1
  else if c = 'K' then 1024
  else if c = 'M' then 1048576
  else if c = 'G' then 1073741824
  else if c = 'T' then 1099511627776
  else 1

/-- pretty_to_bytes (app.py lines 41-44): split off the LAST character as
the unit letter (whatever it is), parse the rest as a float, multiply by
the unit multiplier and truncate toward zero.  Returns none where the
Python code would raise (empty string, unparsable numeric prefix). -/
def parseSize (s : String) : Option Int :=
  let cs := s.toList
  if cs.isEmpty then none
  else
    let c := cs.getLastD ' '
    let p := cs.dropLast
    (parseDecimal p).map
      (fun v => truncDiv (v.1 * (unitMult (Char.toUpper c) : Int)) (10 ^ v.2))

/-- Value of round(n / u, 1) scaled by 10, for natural n and positive
unit u, using round-half-to-even exactly as Python round does on the
exactly represented quotient. -/
def pyRound1 (n u : Nat) : Nat :=
  let t := 10 * n
  let q := t / u
  let r := t % u
  if 2 * r < u then q
  else if 2 * r > u then q + 1
  else if q % 2 = 0 then q else q + 1

/-- Render a scaled-by-10 value the way a Python f-string renders the
float produced by round(x, 1): integer part, point, one decimal digit. -/
def render1 (q : Nat) : String :=
  String.mk (renderNat (q / 10)) ++ "." ++ String.mk (renderNat (q % 10))

/-- The pretty-size formatter of sync_drs.py (generate_manifest_csv lines
309-319 and execute_sync_operations lines 444-454): pick the largest
binary unit not exceeding the byte count, round the quotient to one
decimal with Python round, append the unit letter; byte counts below
1024 are rendered as the bare integer followed by B. -/
def pythonPrettySize (n : Nat) : String :=
  if n ≥ 1099511627776 then render1 (pyRound1 n 1099511627776) ++ "T"
  else if n ≥ 1073741824 then render1 (pyRound1 n 1073741824) ++ "G"
  else if n ≥ 1048576 then render1 (pyRound1 n 1048576) ++ "M"
  else if n ≥ 1024 then render1 (pyRound1 n 1024) ++ "K"
  else String.mk (renderNat n) ++ "B"

/-- The unit table in the order the formatter consults it. -/
def sizeUnits : List (Nat × String) :=
  [(1099511627776, "T"), (1073741824, "G"), (1048576, "M"), (1024, "K")]

/-- Value of round(n / u, 1) scaled by 10 with ties rounding half away
from zero (for non-negative inputs, half up).  Used to state the spec's
claimed tie behaviour and to model MySQL ROUND. -/
def awayRound1 (n u : Nat) : Nat :=
  let t := 10 * n
  let q := t / u
  let r := t % u
  if 2 * r ≥ u then q + 1 else q

/-- Size-codec format as the specification words it: largest unit among
T, G, M, K with n >= unit, quotient rounded to one decimal with ties
half away from zero, unit letter appended; no qualifying unit means the
bare byte count followed by B.  Written from the spec for comparison
against the code's formatter. -/
def specFormatHalfAway (n : Nat) : String :=
  match sizeUnits.find? (fun p => n ≥ p.1) with
  | some (u, l) => render1 (awayRound1 n u) ++ l
  | none => String.mk (renderNat n) ++ "B"

/-- Size-codec format as amended: identical unit selection, but ties
round half to even as Python round does. -/
def specFormatHalfEven (n : Nat) : String :=
  match sizeUnits.find? (fun p => n ≥ p.1) with
  | some (u, l) => render1 (pyRound1 n u) ++ l
  | none => String.mk (renderNat n) ++ "B"

/-- The unit the formatter selects for a byte count. -/
def selectedUnit (n : Nat) : Nat :=
  if n ≥ 1099511627776 then 1099511627776
  else if n ≥ 1073741824 then 1073741824
  else if n ≥ 1048576 then 1048576
  else if n ≥ 1024 then 1024
  else 1

/-- A row of the manifest table (one dataset bundle). -/
structure ManifestRow where
  uuid : String
  hubmap_id : String
  creation_date : String
  dataset_type : String
  directory : String
  doi_url : String
  group_name : String
  is_protected : Bool
  number_of_files : Nat
  pretty_size : String
  deriving DecidableEq

/-- A row of the files table (one file object). -/
structure FileRow where
  hubmap_id : String
  drs_uri : String
  name : String
  dbgap_study_id : String
  file_uuid : String
  checksum : String
  size : Nat
  deriving DecidableEq

/-- The registry: the manifest and files tables. -/
structure Registry where
  manifest : List ManifestRow
  files : List FileRow
  deriving DecidableEq

/-- Split a character list at every occurrence of a separator; models
Python str.split(sep) for a single-character separator: consecutive
separators yield empty segments and the empty string yields one empty
segment. -/
def splitOnChar (sep : Char) : List Char → List (List Char)
  | [] => [[]]
  | c :: rest =>
    if c == sep then [] :: splitOnChar sep rest
    else
      match splitOnChar sep rest with
      | [] => [[c]]
      | h :: t => (c :: h) :: t

/-- Join segments with a slash between them; models "/".join(...). -/
def joinWithSlash : List (List Char) → List Char
  | [] => []
  | [x] => x
  | x :: y :: ys => x ++ '/' :: joinWithSlash (y :: ys)

/-- The slash-delimited segments of a path, as path.split("/") sees them. -/
def pathSegments (s : String) : List (List Char) :=
  splitOnChar '/' s.toList

/-- Last slash-delimited segment of a path; models path.split("/")[-1]. -/
def lastSegment (s : String) : String :=
  String.mk ((pathSegments s).getLastD [])

/-- Externally visible path: a leading slash followed by everything after
the first two slash-delimited segments of the storage path; models
"/" + "/".join(path.split("/")[2:]) (app.py lines 91 and 150). -/
def buildAccessPath (path : String) : String :=
  String.mk ('/' :: joinWithSlash ((pathSegments path).drop 2))

/-- Access URL builder (app.py lines 95 and 152). -/
def buildAccessUrl (accessDomain path : String) : String :=
  "https://" ++ accessDomain ++ buildAccessPath path

/-- One entry of a bundle's contents index. -/
structure ContentsEntry where
  name : String
  id : String
  drs_uri : String
  deriving DecidableEq

/-- The response body built for a dataset bundle. -/
structure BundleView where
  id : String
  self_uri : String
  size : Option Int
  created_time : String
  checksums : List (String × String)
  description : String
  contents : List ContentsEntry
  deriving DecidableEq

/-- The response body built for a single file object. -/
structure ObjectView where
  id : String
  self_uri : String
  name : String
  size : Nat
  created_time : Option String
  access_url : String
  checksum : String
  description : String
  deriving DecidableEq

/-- Outcome of a resolution request: a bundle view, an object view, or a
404 with the given message. -/
inductive DrsResponse where
  | bundle (v : BundleView)
  | object (v : ObjectView)
  | err (msg : String)
  deriving DecidableEq

/-- Rows of the files LEFT JOIN manifest query restricted to a file uuid
(app.py lines 69-74): one row per (file, matching manifest row) pair,
or a single row with a null creation date when no manifest row matches. -/
def leftJoinRows (reg : Registry) (id : String) : List (FileRow × Option String) :=
  (reg.files.filter (fun f => f.file_uuid == id)).flatMap
    (fun f =>
      match reg.manifest.filter (fun m => m.hubmap_id == f.hubmap_id) with
      | [] => [(f, none)]
      | ms => ms.map (fun m => (f, some m.creation_date)))

/-- Bundle response assembly (app.py lines 104-128). -/
def mkBundleView (domain : String) (reg : Registry) (b : ManifestRow) : BundleView :=
  { id := b.hubmap_id
    self_uri := "drs://" ++ domain ++ "/" ++ b.hubmap_id
    size := parseSize b.pretty_size
    created_time := b.creation_date
    checksums := [("", "md5")]
    description := b.hubmap_id ++ " - " ++ b.dataset_type ++ " dataset"
    contents :=
      (reg.files.filter (fun f => f.hubmap_id == b.hubmap_id)).map
        (fun c => { name := lastSegment c.name, id := c.file_uuid,
                    drs_uri := "drs://" ++ domain ++ "/" ++ c.file_uuid }) }

/-- Object response assembly (app.py lines 82-103). -/
def mkObjectView (domain accessDomain : String) (j : FileRow × Option String) : ObjectView :=
  { id := j.1.file_uuid
    self_uri := "drs://" ++ domain ++ "/" ++ j.1.file_uuid
    name := lastSegment j.1.name
    size := j.1.size
    created_time := j.2
    access_url := buildAccessUrl accessDomain j.1.name
    checksum := j.1.checksum
    description := j.1.hubmap_id ++ " - file " ++ j.1.name }

/-- get_drs_object (app.py lines 47-130): look the identifier up in the
manifest table first; more than one row is the uniqueness error, zero
rows falls through to the files table joined with the parent's creation
date, with the same error cases there. -/
def getDrsObject (domain accessDomain : String) (reg : Registry) (id : String) : DrsResponse :=
  match reg.manifest.filter (fun m => m.hubmap_id == id) with
  | [] =>
    match leftJoinRows reg id with
    | [] => .err "No object found."
    | [j] => .object (mkObjectView domain accessDomain j)
    | _ => .err "More than one object found."
  | [b] => .bundle (mkBundleView domain reg b)
  | _ => .err "More than one object found."

/-- True when the response is a bundle view. -/
def isBundleResp : DrsResponse → Bool
  | .bundle _ => true
  | _ => false

/-- True when the response is an object view. -/
def isObjectResp : DrsResponse → Bool
  | .object _ => true
  | _ => false

/-- The access URL carried by an object-view response, if any. -/
def accessUrlOfResp : DrsResponse → Option String
  | .object v => some v.access_url
  | _ => none

/-- Does the first character list start the second one. -/
def startsWithChars : List Char → List Char → Bool
  | [], _ => true
  | _ :: _, [] => false
  | a :: as, b :: bs => a == b && startsWithChars as bs

/-- Substring test on character lists; models Python's `in` on strings. -/
def hasSub (needle : List Char) : List Char → Bool
  | [] => startsWithChars needle []
  | hay@(_ :: rest) => startsWithChars needle hay || hasSub needle rest

/-- A published-dataset descriptor as returned by the Search API fetch
(sync_drs.py lines 58-117). -/
structure DatasetDesc where
  uuid : String
  hubmap_id : String
  dataset_type : String
  doi_url : String
  group_name : String
  published_timestamp : String
  dbgap_study_url : String
  deriving DecidableEq

/-- A file descriptor as returned by the UUID API fetch (sync_drs.py
lines 123-177); filename stands for the filename-or-path fallback. -/
structure FileDesc where
  uuid : String
  dataset_uuid : String
  filename : String
  checksum : String
  size : Nat
  deriving DecidableEq

/-- A row of the SELECT uuid, hubmap_id FROM manifest query
(get_datasets_from_drs, sync_drs.py lines 183-200). -/
structure DrsDatasetRow where
  uuid : String
  hubmap_id : String
  deriving DecidableEq

/-- A row of the SELECT hubmap_id, file_uuid as file_id, name as
file_name FROM files query (get_files_from_drs, lines 202-219). -/
structure DrsFileRow where
  hubmap_id : String
  file_id : String
  file_name : String
  deriving DecidableEq

/-- The four outputs of the reconciliation comparison. -/
structure SyncDiff where
  datasetsToAdd : List DatasetDesc
  filesToAdd : List FileDesc
  datasetsToDelete : List DrsDatasetRow
  filesToDelete : List DrsFileRow
  deriving DecidableEq

/-- The manifest rows as seen by get_datasets_from_drs. -/
def drsDatasetsOf (reg : Registry) : List DrsDatasetRow :=
  reg.manifest.map (fun m => { uuid := m.uuid, hubmap_id := m.hubmap_id })

/-- The file rows as seen by get_files_from_drs. -/
def drsFilesOf (reg : Registry) : List DrsFileRow :=
  reg.files.map (fun f =>
    { hubmap_id := f.hubmap_id, file_id := f.file_uuid, file_name := f.name })

/-- compare_and_identify_missing (sync_drs.py lines 225-272): set
differences on dataset uuids and file uuids, carrying whole rows. -/
def compareAndIdentifyMissing (search : List DatasetDesc) (uuidFiles : List FileDesc)
    (drsDatasets : List DrsDatasetRow) (drsFiles : List DrsFileRow) : SyncDiff :=
  { datasetsToAdd := search.filter (fun d => !(drsDatasets.any (fun r => r.uuid == d.uuid)))
    filesToAdd := uuidFiles.filter (fun f => !(drsFiles.any (fun r => r.file_id == f.uuid)))
    datasetsToDelete := drsDatasets.filter (fun r => !(search.any (fun d => d.uuid == r.uuid)))
    filesToDelete := drsFiles.filter (fun r => !(uuidFiles.any (fun f => f.uuid == r.file_id))) }

/-- Total size of the upstream files attributed to one dataset. -/
def sumDescSizes (fs : List FileDesc) : Nat :=
  fs.foldl (fun a f => a + f.size) 0

/-- The manifest row inserted for a newly added dataset
(execute_sync_operations lines 435-472): file count and pretty size are
computed from the upstream files whose dataset_uuid matches. -/
def mkManifestRow (uuidFiles : List FileDesc) (d : DatasetDesc) : ManifestRow :=
  let datasetFiles := uuidFiles.filter (fun f => f.dataset_uuid == d.uuid)
  { uuid := d.uuid
    hubmap_id := d.hubmap_id
    creation_date := d.published_timestamp
    dataset_type := d.dataset_type
    directory := ""
    doi_url := d.doi_url
    group_name := d.group_name
    is_protected := hasSub "dbgap".toList (d.dbgap_study_url.toList.map Char.toLower)
    number_of_files := datasetFiles.length
    pretty_size := pythonPrettySize (sumDescSizes datasetFiles) }

/-- The files row inserted for a newly added file (execute_sync_operations
lines 482-496); note the hubmap_id column receives the dataset UUID. -/
def mkFileRow (f : FileDesc) : FileRow :=
  { hubmap_id := f.dataset_uuid
    drs_uri := "drs://drs.hubmapconsortium.org/" ++ f.uuid
    name := f.filename
    dbgap_study_id := ""
    file_uuid := f.uuid
    checksum := f.checksum
    size := f.size }

/-- Total size of a list of file rows, as SUM(size) computes it. -/
def sumFileSizes (fs : List FileRow) : Nat :=
  fs.foldl (fun a f => a + f.size) 0

/-- The pretty-size string computed by the step-5 SQL CASE expression
(execute_sync_operations lines 532-546): units T, G, M with a final ELSE
branch that always uses K — there is no B branch — and MySQL ROUND,
modelled as rounding the exact quotient half away from zero. -/
def mysqlPrettySize (s : Nat) : String :=
  if s ≥ 1099511627776 then render1 (awayRound1 s 1099511627776) ++ "T"
  else if s ≥ 1073741824 then render1 (awayRound1 s 1073741824) ++ "G"
  else if s ≥ 1048576 then render1 (awayRound1 s 1048576) ++ "M"
  else render1 (awayRound1 s 1024) ++ "K"

/-- Step 1 of execute_sync_operations: insert a manifest row per added
dataset. -/
def step1Insert (diff : SyncDiff) (uuidFiles : List FileDesc) (reg : Registry) : Registry :=
  { reg with manifest := reg.manifest ++ diff.datasetsToAdd.map (mkManifestRow uuidFiles) }

/-- Step 2: insert a files row per added file. -/
def step2Insert (diff : SyncDiff) (reg : Registry) : Registry :=
  { reg with files := reg.files ++ diff.filesToAdd.map mkFileRow }

/-- Step 3: DELETE FROM files WHERE file_uuid = %s for each file slated
for deletion (lines 503-510). -/
def step3Delete (diff : SyncDiff) (reg : Registry) : Registry :=
  { reg with
    files := diff.filesToDelete.foldl
      (fun fs r => fs.filter (fun g => g.file_uuid != r.file_id)) reg.files }

/-- Step 4: for each dataset slated for deletion, DELETE FROM files WHERE
hubmap_id = %s and then DELETE FROM manifest WHERE uuid = %s (lines
514-524).  The two deletions touch disjoint tables, so the sequential
per-dataset loop is folded per table. -/
def step4Delete (diff : SyncDiff) (reg : Registry) : Registry :=
  { manifest := diff.datasetsToDelete.foldl
      (fun ms d => ms.filter (fun m => m.uuid != d.uuid)) reg.manifest
    files := diff.datasetsToDelete.foldl
      (fun fs d => fs.filter (fun g => g.hubmap_id != d.hubmap_id)) reg.files }

/-- The step-5 UPDATE ... JOIN pair (lines 532-559): every manifest row
with at least one files row sharing its hubmap_id gets its pretty_size
and number_of_files recomputed from those rows; a manifest row matching
no files row is left untouched by the inner join. -/
def updateAggregates (files : List FileRow) (m : ManifestRow) : ManifestRow :=
  let children := files.filter (fun f => f.hubmap_id == m.hubmap_id)
  if children.isEmpty then m
  else { m with
    pretty_size := mysqlPrettySize (sumFileSizes children)
    number_of_files := children.length }

/-- The registry after steps 1-4 of execute_sync_operations. -/
def applyAddsAndDeletes (diff : SyncDiff) (uuidFiles : List FileDesc) (reg : Registry) : Registry :=
  step4Delete diff (step3Delete diff (step2Insert diff (step1Insert diff uuidFiles reg)))

/-- Step 5 applied to a registry. -/
def step5Update (reg : Registry) : Registry :=
  { reg with manifest := reg.manifest.map (updateAggregates reg.files) }

/-- The registry produced by a successful run of execute_sync_operations
(sync_drs.py lines 415-574). -/
def applySync (diff : SyncDiff) (uuidFiles : List FileDesc) (reg : Registry) : Registry :=
  step5Update (applyAddsAndDeletes diff uuidFiles reg)

/-- One database call issued by execute_sync_operations: a cursor.execute
statement or a conn.commit boundary. -/
inductive SyncOp where
  | insertManifest (row : ManifestRow)
  | insertFile (row : FileRow)
  | deleteFileByUuid (id : String)
  | deleteFilesByParent (hubmapId : String)
  | deleteManifestByUuid (uuid : String)
  | updateSizes
  | updateCounts
  | commit
  deriving DecidableEq

/-- The sequence of database calls execute_sync_operations issues for a
given diff, in source order: inserts of datasets then files, file
deletions, per-dataset file-then-manifest deletions, and the two
aggregate updates; each non-empty phase ends with a commit, and the
update phase always commits. -/
def syncOps (diff : SyncDiff) (uuidFiles : List FileDesc) : List SyncOp :=
  (if diff.datasetsToAdd.isEmpty then []
   else diff.datasetsToAdd.map (fun d => SyncOp.insertManifest (mkManifestRow uuidFiles d))
        ++ [SyncOp.commit])
  ++ (if diff.filesToAdd.isEmpty then []
      else diff.filesToAdd.map (fun f => SyncOp.insertFile (mkFileRow f)) ++ [SyncOp.commit])
  ++ (if diff.filesToDelete.isEmpty then []
      else diff.filesToDelete.map (fun r => SyncOp.deleteFileByUuid r.file_id) ++ [SyncOp.commit])
  ++ (if diff.datasetsToDelete.isEmpty then []
      else (diff.datasetsToDelete.flatMap
             (fun d => [SyncOp.deleteFilesByParent d.hubmap_id,
                        SyncOp.deleteManifestByUuid d.uuid]))
           ++ [SyncOp.commit])
  ++ [SyncOp.updateSizes, SyncOp.updateCounts, SyncOp.commit]

/-- Effect of a single database call on the working registry state. -/
def execOp (reg : Registry) : SyncOp → Registry
  | .insertManifest row => { reg with manifest := reg.manifest ++ [row] }
  | .insertFile row => { reg with files := reg.files ++ [row] }
  | .deleteFileByUuid id =>
    { reg with files := reg.files.filter (fun g => g.file_uuid != id) }
  | .deleteFilesByParent h =>
    { reg with files := reg.files.filter (fun g => g.hubmap_id != h) }
  | .deleteManifestByUuid u =>
    { reg with manifest := reg.manifest.filter (fun m => m.uuid != u) }
  | .updateSizes =>
    { reg with manifest := reg.manifest.map (fun m =>
        let children := reg.files.filter (fun f => f.hubmap_id == m.hubmap_id)
        if children.isEmpty then m
        else { m with pretty_size := mysqlPrettySize (sumFileSizes children) }) }
  | .updateCounts =>
    { reg with manifest := reg.manifest.map (fun m =>
        let children := reg.files.filter (fun f => f.hubmap_id == m.hubmap_id)
        if children.isEmpty then m
        else { m with number_of_files := children.length }) }
  | .commit => reg

/-- Result of a synchronization transaction: success, or the SyncFailed
outcome carrying the registry as the database leaves it. -/
inductive SyncResult where
  | ok (reg : Registry)
  | syncFailed (reg : Registry)
  deriving DecidableEq

/-- Run the database calls with MySQL's commit semantics: an error at the
failAt-th cursor.execute call triggers conn.rollback, which reverts only
the work since the last conn.commit — everything committed earlier
stays.  The exception is re-raised, surfacing as a failed sync. -/
def runSyncOps : List SyncOp → Nat → Option Nat → Registry → Registry → SyncResult
  | [], _, _, _, current => .ok current
  | op :: rest, i, failAt, committed, current =>
    match op with
    | .commit => runSyncOps rest i failAt current current
    | _ =>
      if failAt = some i then .syncFailed committed
      else runSyncOps rest (i + 1) failAt committed (execOp current op)

/-- execute_sync_operations (sync_drs.py lines 415-574) with an explicit
fault injection point: failAt = some k makes the k-th cursor.execute
call raise. -/
def executeSyncOperations (diff : SyncDiff) (uuidFiles : List FileDesc)
    (reg : Registry) (failAt : Option Nat) : SyncResult :=
  runSyncOps (syncOps diff uuidFiles) 0 failAt reg reg

/-- Outcome of a whole synchronization run. -/
inductive RunOutcome where
  | aborted
  | dryRun
  | executed
  deriving DecidableEq

/-- run_sync (sync_drs.py lines 580-653), CSV exports elided as pure
observers: the Search API fetch yields an empty frame on a request
error (lines 115-117), modelled by fetchResult = none; an empty dataset
frame aborts the run before any comparison or database write (lines
596-598).  Otherwise the diff is computed and, in execute mode, applied. -/
def runSync (fetchResult : Option (List DatasetDesc)) (uuidFiles : List FileDesc)
    (reg : Registry) (execute : Bool) : Registry × RunOutcome :=
  let searchDatasets := fetchResult.getD []
  if searchDatasets.isEmpty then (reg, .aborted)
  else
    let drsDatasets := drsDatasetsOf reg
    let drsFiles := if drsDatasets.isEmpty then [] else drsFilesOf reg
    let diff := compareAndIdentifyMissing searchDatasets uuidFiles drsDatasets drsFiles
    if execute then (applySync diff uuidFiles reg, .executed)
    else (reg, .dryRun)

/-- With enough fuel, the fuel-driven renderer agrees with renderNat. -/
theorem renderNatCore_eq (n : Nat) : ∀ f, n < f → renderNatCore f n = renderNat n := by
  induction n using Nat.strong_induction_on with
  | _ n ih =>
    intro f hf
    match f, hf with
    | f + 1, hf =>
      by_cases h10 : n < 10
      · simp [renderNatCore, renderNat, h10]
      · have hdiv : n / 10 < n := Nat.div_lt_self (by omega) (by omega)
        have h1 : renderNatCore f (n / 10) = renderNat (n / 10) := ih _ hdiv _ (by omega)
        have h2 : renderNatCore n (n / 10) = renderNat (n / 10) := ih _ hdiv _ (by omega)
        simp [renderNatCore, renderNat, h10, h1, h2]

/-- renderNat on a single-digit number. -/
theorem renderNat_lt {n : Nat} (h : n < 10) : renderNat n = [Nat.digitChar n] := by
  simp [renderNat, renderNatCore, h]

/-- renderNat peels off the final digit of a multi-digit number. -/
theorem renderNat_ge {n : Nat} (h : 10 ≤ n) :
    renderNat n = renderNat (n / 10) ++ [Nat.digitChar (n % 10)] := by
  have hdiv : n / 10 < n := Nat.div_lt_self (by omega) (by omega)
  have h1 : renderNatCore n (n / 10) = renderNat (n / 10) := renderNatCore_eq _ _ hdiv
  simp [renderNat, renderNatCore, Nat.not_lt.mpr h, h1]

/-- Digit characters of values below ten are ASCII digits. -/
theorem digitChar_isDigit {d : Nat} (h : d < 10) : (Nat.digitChar d).isDigit = true := by
  interval_cases d <;> decide

/-- charVal inverts digitChar below ten. -/
theorem charVal_digitChar {d : Nat} (h : d < 10) : charVal (Nat.digitChar d) = d := by
  interval_cases d <;> decide

/-- Every character renderNat emits is an ASCII digit. -/
theorem renderNat_isDigit (n : Nat) : ∀ c ∈ renderNat n, c.isDigit = true := by
  induction n using Nat.strong_induction_on with
  | _ n ih =>
    by_cases h10 : n < 10
    · rw [renderNat_lt h10]
      intro c hc
      rw [List.mem_singleton] at hc
      exact hc ▸ digitChar_isDigit h10
    · rw [renderNat_ge (by omega)]
      intro c hc
      rcases List.mem_append.mp hc with h | h
      · exact ih _ (Nat.div_lt_self (by omega) (by omega)) c h
      · rw [List.mem_singleton] at h
        exact h ▸ digitChar_isDigit (Nat.mod_lt _ (by omega))

/-- renderNat never returns the empty list. -/
theorem renderNat_ne_nil (n : Nat) : renderNat n ≠ [] := by
  by_cases h10 : n < 10
  · rw [renderNat_lt h10]; simp
  · rw [renderNat_ge (by omega)]; simp

/-- An ASCII digit is not a point. -/
theorem isDigit_ne_dot {c : Char} (h : c.isDigit = true) : (c != '.') = true := by
  simp only [bne_iff_ne, ne_eq]
  intro hc
  subst hc
  exact absurd h (by decide)

/-- An ASCII digit is not a minus sign. -/
theorem isDigit_ne_minus {c : Char} (h : c.isDigit = true) : c ≠ '-' := by
  intro hc
  subst hc
  exact absurd h (by decide)

/-- The digit-list folder recovers the rendered number. -/
theorem foldl_renderNat (n : Nat) :
    ∀ a : Nat, (renderNat n).foldl (fun a c => 10 * a + charVal c) a = a * 10 ^ (renderNat n).length + n := by
  induction n using Nat.strong_induction_on with
  | _ n ih =>
    intro a
    by_cases h10 : n < 10
    · rw [renderNat_lt h10]
      simp [charVal_digitChar h10]
      ring
    · rw [renderNat_ge (by omega)]
      rw [List.foldl_append]
      rw [ih _ (Nat.div_lt_self (by omega) (by omega))]
      simp only [List.foldl_cons, List.foldl_nil, List.length_append, List.length_cons,
        List.length_nil]
      rw [charVal_digitChar (Nat.mod_lt _ (by omega))]
      rw [pow_succ]
      have := Nat.div_add_mod n 10
      ring_nf
      omega

/-- parseNatDigits inverts renderNat. -/
theorem parseNatDigits_renderNat (n : Nat) : parseNatDigits (renderNat n) = some n := by
  unfold parseNatDigits
  rw [if_pos]
  · have := foldl_renderNat n 0
    simp at this
    rw [this]
  · exact ⟨renderNat_ne_nil n, List.all_eq_true.mpr (renderNat_isDigit n)⟩

/-- takeWhile keeps a wholly satisfying prefix up to the first failure. -/
theorem takeWhile_append_cons {α : Type} (p : α → Bool) (xs : List α) (y : α) (ys : List α)
    (hxs : ∀ x ∈ xs, p x = true) (hy : p y = false) :
    (xs ++ y :: ys).takeWhile p = xs := by
  induction xs with
  | nil => simp [List.takeWhile, hy]
  | cons a as ihx =>
    have ha : p a = true := hxs a (by simp)
    simp only [List.cons_append, List.takeWhile, ha, List.append_eq]
    rw [ihx (fun x hx => hxs x (by simp [hx]))]

/-- dropWhile drops a wholly satisfying prefix up to the first failure. -/
theorem dropWhile_append_cons {α : Type} (p : α → Bool) (xs : List α) (y : α) (ys : List α)
    (hxs : ∀ x ∈ xs, p x = true) (hy : p y = false) :
    (xs ++ y :: ys).dropWhile p = y :: ys := by
  induction xs with
  | nil => simp [List.dropWhile, hy]
  | cons a as ihx =>
    have ha : p a = true := hxs a (by simp)
    simp only [List.cons_append, List.dropWhile, ha, List.append_eq]
    exact ihx (fun x hx => hxs x (by simp [hx]))

/-- takeWhile of a wholly satisfying list is the list itself. -/
theorem takeWhile_all {α : Type} (p : α → Bool) (xs : List α)
    (hxs : ∀ x ∈ xs, p x = true) : xs.takeWhile p = xs := by
  induction xs with
  | nil => rfl
  | cons a as ihx =>
    have ha : p a = true := hxs a (by simp)
    simp only [List.takeWhile, ha]
    rw [ihx (fun x hx => hxs x (by simp [hx]))]

/-- dropWhile of a wholly satisfying list is empty. -/
theorem dropWhile_all {α : Type} (p : α → Bool) (xs : List α)
    (hxs : ∀ x ∈ xs, p x = true) : xs.dropWhile p = [] := by
  induction xs with
  | nil => rfl
  | cons a as ihx =>
    have ha : p a = true := hxs a (by simp)
    simp only [List.dropWhile, ha]
    exact ihx (fun x hx => hxs x (by simp [hx]))

/-- parseUnsignedDec inverts renderNat on a bare integer numeral. -/
theorem parseUnsignedDec_renderNat (n : Nat) :
    parseUnsignedDec (renderNat n) = some (n, 0) := by
  unfold parseUnsignedDec
  have hnd : ∀ c ∈ renderNat n, (c != '.') = true :=
    fun c hc => isDigit_ne_dot (renderNat_isDigit n c hc)
  rw [takeWhile_all _ _ hnd, dropWhile_all _ _ hnd]
  simp [parseNatDigits_renderNat n]

/-- parseUnsignedDec on an integer part, a point and a single fractional
digit recovers the scaled value. -/
theorem parseUnsignedDec_point (a b : Nat) (hb : b < 10) :
    parseUnsignedDec (renderNat a ++ '.' :: renderNat b) = some (a * 10 + b, 1) := by
  unfold parseUnsignedDec
  have hna : ∀ c ∈ renderNat a, (c != '.') = true :=
    fun c hc => isDigit_ne_dot (renderNat_isDigit a c hc)
  have hanynil : (renderNat b).any (fun c => c == '.') = false := by
    rw [List.any_eq_false]
    intro c hc
    have := isDigit_ne_dot (renderNat_isDigit b c hc)
    simpa [bne] using this
  have ha_nil : renderNat a ≠ [] := renderNat_ne_nil a
  have hb_nil : renderNat b ≠ [] := renderNat_ne_nil b
  rw [takeWhile_append_cons _ _ _ _ hna (by decide),
      dropWhile_append_cons _ _ _ _ hna (by decide)]
  simp only [hanynil, Bool.false_eq_true, if_false, ha_nil, hb_nil, false_and, and_false,
    parseNatDigits_renderNat]
  rw [renderNat_lt hb]
  simp

/-- parseDecimal inverts renderNat. -/
theorem parseDecimal_renderNat (n : Nat) :
    parseDecimal (renderNat n) = some ((n : Int), 0) := by
  unfold parseDecimal
  obtain ⟨c, cs, hcons⟩ := List.exists_cons_of_ne_nil (renderNat_ne_nil n)
  have hdig : c.isDigit = true := renderNat_isDigit n c (by rw [hcons]; simp)
  rw [if_neg (by rw [hcons]; simpa using isDigit_ne_minus hdig)]
  rw [parseUnsignedDec_renderNat n]
  rfl

/-- parseDecimal recovers the scaled value of a one-decimal rendering. -/
theorem parseDecimal_point (a b : Nat) (hb : b < 10) :
    parseDecimal (renderNat a ++ '.' :: renderNat b) = some (((a * 10 + b : Nat) : Int), 1) := by
  unfold parseDecimal
  obtain ⟨c, cs, hcons⟩ := List.exists_cons_of_ne_nil (renderNat_ne_nil a)
  have hdig : c.isDigit = true := renderNat_isDigit a c (by rw [hcons]; simp)
  rw [if_neg (by rw [hcons]; simpa using isDigit_ne_minus hdig)]
  rw [parseUnsignedDec_point a b hb]
  rfl

/-- String append is list append on the underlying characters. -/
theorem mk_append_mk (xs ys : List Char) : String.mk xs ++ String.mk ys = String.mk (xs ++ ys) :=
  rfl

/-- Truncation toward zero of a non-negative value is floor division. -/
theorem truncDiv_coe (a b : Nat) : truncDiv (a : Int) b = ((a / b : Nat) : Int) := by
  simp [truncDiv]

/-- parseSize splits off the final character and parses the rest. -/
theorem parseSize_concat (xs : List Char) (c : Char) :
    parseSize (String.mk (xs ++ [c])) =
      (parseDecimal xs).map
        (fun v => truncDiv (v.1 * (unitMult (Char.toUpper c) : Int)) (10 ^ v.2)) := by
  have hne : (xs ++ [c]).isEmpty = false := by simp
  unfold parseSize
  simp only [String.toList, hne, Bool.false_eq_true, if_false,
    List.getLastD_concat, List.dropLast_concat]

/-- Round trip of a bare byte count through the B branch of the
formatter and pretty_to_bytes. -/
theorem parseSize_renderNat_B (n : Nat) :
    parseSize (String.mk (renderNat n) ++ "B") = some ((n : Int)) := by
  rw [show ("B" : String) = String.mk ['B'] from rfl, mk_append_mk]
  rw [parseSize_concat]
  rw [parseDecimal_renderNat]
  simp only [Option.map_some']
  norm_num
  rw [show unitMult (Char.toUpper 'B') = 1 from rfl]
  rw [show ((1 : Nat) : Int) = 1 from rfl, mul_one, truncDiv_coe]
  simp

/-- Round trip of a one-decimal rendering followed by a unit letter:
pretty_to_bytes returns the scaled value times the unit, truncated. -/
theorem parseSize_render1_concat (q : Nat) (c : Char) :
    parseSize (render1 q ++ String.mk [c]) =
      some (((q * unitMult (Char.toUpper c) / 10 : Nat) : Int)) := by
  have h1 : render1 q ++ String.mk [c] =
      String.mk ((renderNat (q / 10) ++ '.' :: renderNat (q % 10)) ++ [c]) := by
    rw [render1, show ("." : String) = String.mk ['.'] from rfl,
      mk_append_mk, mk_append_mk, mk_append_mk]
    simp [List.append_assoc]
  rw [h1, parseSize_concat]
  rw [parseDecimal_point _ _ (Nat.mod_lt _ (by omega))]
  simp only [Option.map_some']
  have hq : q / 10 * 10 + q % 10 = q := by omega
  rw [hq]
  rw [show ((q : Int) * (unitMult (Char.toUpper c) : Int)) =
      ((q * unitMult (Char.toUpper c) : Nat) : Int) by push_cast; ring]
  rw [pow_one, truncDiv_coe]

/-- The scaled rounding is within half a unit of the exact value. -/
theorem pyRound1_bound (n u : Nat) (hu : 0 < u) :
    20 * n ≤ 2 * (pyRound1 n u * u) + u ∧ 2 * (pyRound1 n u * u) ≤ 20 * n + u := by
  have hpy : pyRound1 n u =
      if 2 * (10 * n % u) < u then 10 * n / u
      else if 2 * (10 * n % u) > u then 10 * n / u + 1
      else if (10 * n / u) % 2 = 0 then 10 * n / u else 10 * n / u + 1 := rfl
  have hdm : u * (10 * n / u) + 10 * n % u = 10 * n := Nat.div_add_mod _ _
  have hcomm : 10 * n / u * u = u * (10 * n / u) := Nat.mul_comm _ _
  have hsucc : (10 * n / u + 1) * u = u * (10 * n / u) + u := by ring
  have hr : 10 * n % u < u := Nat.mod_lt _ hu
  rw [hpy]
  split_ifs <;> constructor <;> omega

/-- One-decimal formatting followed by parsing lands within half a tenth
of the unit, plus the final one-byte truncation loss. -/
theorem roundtrip_unit (n u : Nat) (hu : 0 < u) (c : Char) (hc : unitMult (Char.toUpper c) = u) :
    ∃ m : Int, parseSize (render1 (pyRound1 n u) ++ String.mk [c]) = some m ∧
      20 * (m - (n : Int)).natAbs ≤ u + 19 := by
  refine ⟨_, parseSize_render1_concat _ _, ?_⟩
  rw [hc]
  have hb := pyRound1_bound n u hu
  have hdm : 10 * (pyRound1 n u * u / 10) + pyRound1 n u * u % 10 = pyRound1 n u * u :=
    Nat.div_add_mod _ _
  have hs : pyRound1 n u * u % 10 < 10 := Nat.mod_lt _ (by omega)
  omega

/-- C4 (corrected): the formatter selects the largest unit among T, G, M,
K, B not exceeding the byte count and emits the quotient rounded to one
decimal followed by the unit letter, but ties round half to EVEN (Python
round), not half away from zero; the claim's examples format(0) = "0B",
format(1024) = "1.0K" and format(1572864) = "1.5M" all hold. -/
theorem c4_format_amended :
    (∀ n : Nat, pythonPrettySize n = specFormatHalfEven n) ∧
    pythonPrettySize 0 = "0B" ∧ pythonPrettySize 1024 = "1.0K" ∧
    pythonPrettySize 1572864 = "1.5M" := by
  refine ⟨fun n => ?_, by decide, by decide, by decide⟩
  unfold pythonPrettySize specFormatHalfEven sizeUnits
  by_cases h1 : n ≥ 1099511627776
  · simp [List.find?, h1]
  · by_cases h2 : n ≥ 1073741824
    · simp [List.find?, h1, h2]
    · by_cases h3 : n ≥ 1048576
      · simp [List.find?, h1, h2, h3]
      · by_cases h4 : n ≥ 1024
        · simp [List.find?, h1, h2, h3, h4]
        · simp [List.find?, h1, h2, h3, h4]

/-- C4 counterexample: at 1280 bytes the quotient 1280 / 1024 = 1.25 is an
exact tie; the code rounds it to even giving "1.2K", while the claimed
half-away-from-zero rounding would give "1.3K". -/
theorem c4_counterexample :
    pythonPrettySize 1280 = "1.2K" ∧ specFormatHalfAway 1280 = "1.3K" ∧
    pythonPrettySize 1280 ≠ specFormatHalfAway 1280 := by
  refine ⟨by decide, by decide, by decide⟩

/-- C5 (corrected): pretty_to_bytes always removes the final character of
its argument before parsing the numeric prefix — also when that character
is not a recognized unit letter, in which case the multiplier defaults to
1 but the character is still consumed.  The trailing letter is read
case-insensitively and the product is truncated toward zero.  In
particular "500" parses to 50, not to 500. -/
theorem c5_parse_amended :
    (∀ (p : List Char) (c : Char), parseSize (String.mk (p ++ [c])) =
      (parseDecimal p).map
        (fun v => truncDiv (v.1 * (unitMult (Char.toUpper c) : Int)) (10 ^ v.2))) ∧
    parseSize "500" = some 50 ∧ parseSize "2.5K" = some 2560 ∧
    parseSize "2.5k" = some 2560 ∧ parseSize "-1.2K" = some (-1228) :=
  ⟨parseSize_concat, by decide, by decide, by decide, by decide⟩

/-- C5 counterexample: the claim says a string with no trailing unit
letter such as "500" parses to its full numeric value 500; the code
consumes the final character as a (unrecognized) unit, parsing "500" to
50. -/
theorem c5_counterexample :
    parseSize "500" = some 50 ∧ parseSize "500" ≠ some 500 := by
  refine ⟨by decide, by decide⟩

/-- C6 (corrected): parse(format(n)) is within half a tenth of the
selected unit of n PLUS one byte — the final int() truncation can push
the error just past the pure rounding tolerance; stated here as
20 * error bounded by unit + 19.  The claim's example holds:
format(2400000000) = "2.2G" and parse("2.2G") = 2362232012. -/
theorem c6_round_trip_amended :
    (∀ n : Nat, ∃ m : Int, parseSize (pythonPrettySize n) = some m ∧
      20 * (m - (n : Int)).natAbs ≤ selectedUnit n + 19) ∧
    pythonPrettySize 2400000000 = "2.2G" ∧ parseSize "2.2G" = some 2362232012 := by
  refine ⟨fun n => ?_, by decide, by decide⟩
  by_cases h1 : n ≥ 1099511627776
  · have hfmt : pythonPrettySize n = render1 (pyRound1 n 1099511627776) ++ String.mk ['T'] := by
      unfold pythonPrettySize
      rw [if_pos h1]
    have hsel : selectedUnit n = 1099511627776 := by
      unfold selectedUnit
      rw [if_pos h1]
    rw [hfmt, hsel]
    exact roundtrip_unit n _ (by norm_num) 'T' (by decide)
  · by_cases h2 : n ≥ 1073741824
    · have hfmt : pythonPrettySize n = render1 (pyRound1 n 1073741824) ++ String.mk ['G'] := by
        unfold pythonPrettySize
        rw [if_neg h1, if_pos h2]
      have hsel : selectedUnit n = 1073741824 := by
        unfold selectedUnit
        rw [if_neg h1, if_pos h2]
      rw [hfmt, hsel]
      exact roundtrip_unit n _ (by norm_num) 'G' (by decide)
    · by_cases h3 : n ≥ 1048576
      · have hfmt : pythonPrettySize n = render1 (pyRound1 n 1048576) ++ String.mk ['M'] := by
          unfold pythonPrettySize
          rw [if_neg h1, if_neg h2, if_pos h3]
        have hsel : selectedUnit n = 1048576 := by
          unfold selectedUnit
          rw [if_neg h1, if_neg h2, if_pos h3]
        rw [hfmt, hsel]
        exact roundtrip_unit n _ (by norm_num) 'M' (by decide)
      · by_cases h4 : n ≥ 1024
        · have hfmt : pythonPrettySize n = render1 (pyRound1 n 1024) ++ String.mk ['K'] := by
            unfold pythonPrettySize
            rw [if_neg h1, if_neg h2, if_neg h3, if_pos h4]
          have hsel : selectedUnit n = 1024 := by
            unfold selectedUnit
            rw [if_neg h1, if_neg h2, if_neg h3, if_pos h4]
          rw [hfmt, hsel]
          exact roundtrip_unit n _ (by norm_num) 'K' (by decide)
        · have hfmt : pythonPrettySize n = String.mk (renderNat n) ++ "B" := by
            unfold pythonPrettySize
            rw [if_neg h1, if_neg h2, if_neg h3, if_neg h4]
          have hsel : selectedUnit n = 1 := by
            unfold selectedUnit
            rw [if_neg h1, if_neg h2, if_neg h3, if_neg h4]
          rw [hfmt, hsel]
          refine ⟨n, parseSize_renderNat_B n, ?_⟩
          simp

/-- C6 counterexample: at n = 1280 the code formats to "1.2K" (tie rounded
to even) and parses back to 1228; the error 52 exceeds half a tenth of
the selected unit (1024 / 20 = 51.2), so the claimed tolerance fails. -/
theorem c6_counterexample :
    parseSize (pythonPrettySize 1280) = some 1228 ∧
    ¬ 20 * ((1228 : Int) - (1280 : Int)).natAbs ≤ selectedUnit 1280 := by
  refine ⟨by decide, by decide⟩

/-- Appending an empty character list changes nothing. -/
theorem string_append_mk_nil (a : String) : a ++ String.mk [] = a := by
  cases a with
  | mk la => rw [mk_append_mk, List.append_nil]

/-- String append is associative. -/
theorem string_append_assoc (a b c : String) : a ++ b ++ c = a ++ (b ++ c) := by
  cases a with
  | mk la =>
    cases b with
    | mk lb =>
      cases c with
      | mk lc =>
        rw [mk_append_mk, mk_append_mk, mk_append_mk, mk_append_mk, List.append_assoc]

/-- A sample file row whose storage path has a single segment. -/
def shortPathFileRow : FileRow :=
  { hubmap_id := "HBM1", drs_uri := "", name := "file.txt", dbgap_study_id := "",
    file_uuid := "F1", checksum := "c", size := 7 }

/-- A registry holding only the short-path file. -/
def shortPathRegistry : Registry :=
  { manifest := [], files := [shortPathFileRow] }

/-- C8 (corrected): for a storage path of at least three slash-delimited
segments the access URL is https plus the access domain plus the path
with its first two segments removed; for a path with fewer than two
segments the builder yields the bare "https://" ++ domain ++ "/" — a
degenerate but well-formed URL that the resolver returns inside a
successful Object View rather than surfacing NotFound.  The builder is a
total function, so it never crashes. -/
theorem c8_access_url_amended : ∀ domain path : String,
    (3 ≤ (pathSegments path).length →
      buildAccessUrl domain path =
        "https://" ++ domain ++ "/" ++
          String.mk (joinWithSlash ((pathSegments path).drop 2))) ∧
    (3 ≤ (pathSegments path).length →
      ∃ s1 s2 rest, pathSegments path = s1 :: s2 :: rest ∧
        buildAccessUrl domain path =
          "https://" ++ domain ++ "/" ++ String.mk (joinWithSlash rest)) ∧
    ((pathSegments path).length ≤ 1 →
      buildAccessUrl domain path = "https://" ++ domain ++ "/") := by
  intro domain path
  have hbase : buildAccessUrl domain path =
      "https://" ++ domain ++ "/" ++
        String.mk (joinWithSlash ((pathSegments path).drop 2)) := by
    unfold buildAccessUrl buildAccessPath
    rw [show String.mk ('/' :: joinWithSlash ((pathSegments path).drop 2)) =
        "/" ++ String.mk (joinWithSlash ((pathSegments path).drop 2)) from rfl]
    exact (string_append_assoc _ _ _).symm
  refine ⟨fun _ => hbase, fun h3 => ?_, fun h1 => ?_⟩
  · obtain ⟨s1, t, ht⟩ : ∃ s1 t, pathSegments path = s1 :: t := by
      cases hp : pathSegments path with
      | nil => rw [hp] at h3; simp at h3
      | cons a b => exact ⟨a, b, rfl⟩
    obtain ⟨s2, rest, hrest⟩ : ∃ s2 rest, t = s2 :: rest := by
      cases t with
      | nil => rw [ht] at h3; simp at h3
      | cons a b => exact ⟨a, b, rfl⟩
    refine ⟨s1, s2, rest, by rw [ht, hrest], ?_⟩
    rw [hbase, ht, hrest]
    rfl
  · rw [hbase, List.drop_eq_nil_of_le (by omega)]
    exact string_append_mk_nil _

/-- C8 witness: the claim's example path and domain produce the documented
URL, the decomposition exposes the removed segments, and a one-segment
path produces the degenerate domain-only URL. -/
theorem c8_access_url_amended_witness :
    buildAccessUrl "files.example.org" "root/internalid/sub/dir/file.txt" =
      "https://files.example.org/sub/dir/file.txt" ∧
    (∃ s1 s2 rest,
      pathSegments "root/internalid/sub/dir/file.txt" = s1 :: s2 :: rest ∧
      buildAccessUrl "files.example.org" "root/internalid/sub/dir/file.txt" =
        "https://" ++ "files.example.org" ++ "/" ++ String.mk (joinWithSlash rest)) ∧
    buildAccessUrl "files.example.org" "file.txt" = "https://files.example.org/" := by
  refine ⟨?_,
    (c8_access_url_amended "files.example.org" "root/internalid/sub/dir/file.txt").2.1
      (by decide),
    (c8_access_url_amended "files.example.org" "file.txt").2.2 (by decide)⟩
  rw [(c8_access_url_amended "files.example.org" "root/internalid/sub/dir/file.txt").1
    (by decide)]
  decide

/-- C8 counterexample: for a file whose storage path has a single segment
the claim says the resolver surfaces NotFound; the code instead returns a
successful Object View carrying the degenerate URL https://domain/. -/
theorem c8_counterexample :
    (pathSegments "file.txt").length < 2 ∧
    getDrsObject "drs.hubmapconsortium.org" "files.example.org" shortPathRegistry "F1" ≠
      DrsResponse.err "No object found." ∧
    accessUrlOfResp
      (getDrsObject "drs.hubmapconsortium.org" "files.example.org" shortPathRegistry "F1") =
      some "https://files.example.org/" := by
  refine ⟨by decide, by decide, by decide⟩

/-- A sample bundle row used in concrete resolution scenarios. -/
def bundleRowW : ManifestRow :=
  { uuid := "u1", hubmap_id := "B1", creation_date := "2024-01-01",
    dataset_type := "RNAseq", directory := "", doi_url := "", group_name := "g",
    is_protected := false, number_of_files := 1, pretty_size := "1.0K" }

/-- A sample file row used in concrete resolution scenarios. -/
def fileRowW : FileRow :=
  { hubmap_id := "B1", drs_uri := "", name := "ns/internal/c.txt", dbgap_study_id := "",
    file_uuid := "F1", checksum := "ck", size := 1024 }

/-- The sample file under an identifier that also names the bundle. -/
def fileRowB1 : FileRow :=
  { fileRowW with file_uuid := "B1" }

/-- A registry with duplicate manifest rows for the parent of one file. -/
def dupParentRegistry : Registry :=
  { manifest := [bundleRowW, { bundleRowW with uuid := "u2" }], files := [fileRowW] }

/-- C7 (corrected): the resolver looks the identifier up among bundles
first — a unique bundle match returns a Bundle View even when files
match too; with no bundle match, a unique file match returns an Object
View PROVIDED the file's parent identifier matches at most one bundle
row (the join row count, not the file count, is what the code tests —
duplicate parent rows turn a unique file into the multiplicity error);
no match at either step is "No object found."; more than one bundle
match, or more than one join row, is "More than one object found.". -/
theorem c7_resolver_amended : ∀ (domain accessDomain : String) (reg : Registry) (id : String),
    ((reg.manifest.filter (fun m => m.hubmap_id == id)).length = 1 →
      isBundleResp (getDrsObject domain accessDomain reg id) = true) ∧
    ((reg.manifest.filter (fun m => m.hubmap_id == id)).length = 0 →
      (reg.files.filter (fun f => f.file_uuid == id)).length = 1 →
      (∀ f ∈ reg.files.filter (fun f => f.file_uuid == id),
        (reg.manifest.filter (fun m => m.hubmap_id == f.hubmap_id)).length ≤ 1) →
      isObjectResp (getDrsObject domain accessDomain reg id) = true) ∧
    ((reg.manifest.filter (fun m => m.hubmap_id == id)).length = 0 →
      (reg.files.filter (fun f => f.file_uuid == id)).length = 0 →
      getDrsObject domain accessDomain reg id = .err "No object found.") ∧
    (1 < (reg.manifest.filter (fun m => m.hubmap_id == id)).length →
      getDrsObject domain accessDomain reg id = .err "More than one object found.") ∧
    ((reg.manifest.filter (fun m => m.hubmap_id == id)).length = 0 →
      1 < (leftJoinRows reg id).length →
      getDrsObject domain accessDomain reg id = .err "More than one object found.") := by
  intro domain accessDomain reg id
  refine ⟨?_, ?_, ?_, ?_, ?_⟩
  · intro h1
    obtain ⟨b, hb⟩ := List.length_eq_one.mp h1
    unfold getDrsObject
    rw [hb]
    rfl
  · intro h0 h1 hparent
    obtain ⟨f, hf⟩ := List.length_eq_one.mp h1
    have hjoin : ∃ j, leftJoinRows reg id = [j] := by
      unfold leftJoinRows
      rw [hf]
      cases hm2 : reg.manifest.filter (fun m => m.hubmap_id == f.hubmap_id) with
      | nil => exact ⟨(f, none), by simp [hm2]⟩
      | cons m t =>
        have hle := hparent f (by rw [hf]; exact List.mem_singleton_self f)
        rw [hm2] at hle
        have ht : t = [] := by
          have hlen : t.length + 1 ≤ 1 := by
            simpa using hle
          exact List.eq_nil_of_length_eq_zero (by omega)
        subst ht
        exact ⟨(f, some m.creation_date), by simp [hm2]⟩
    obtain ⟨j, hj⟩ := hjoin
    unfold getDrsObject
    rw [List.length_eq_zero.mp h0, hj]
    rfl
  · intro h0 h1
    have hjoin : leftJoinRows reg id = [] := by
      unfold leftJoinRows
      rw [List.length_eq_zero.mp h1]
      rfl
    unfold getDrsObject
    rw [List.length_eq_zero.mp h0, hjoin]
  · intro hgt
    obtain ⟨a, t, hat⟩ : ∃ a t, reg.manifest.filter (fun m => m.hubmap_id == id) = a :: t := by
      cases hm : reg.manifest.filter (fun m => m.hubmap_id == id) with
      | nil => rw [hm] at hgt; simp at hgt
      | cons a t => exact ⟨a, t, rfl⟩
    obtain ⟨b, t2, hbt⟩ : ∃ b t2, t = b :: t2 := by
      cases t with
      | nil => rw [hat] at hgt; simp at hgt
      | cons b t2 => exact ⟨b, t2, rfl⟩
    unfold getDrsObject
    rw [hat, hbt]
  · intro h0 hgt
    obtain ⟨a, t, hat⟩ : ∃ a t, leftJoinRows reg id = a :: t := by
      cases hm : leftJoinRows reg id with
      | nil => rw [hm] at hgt; simp at hgt
      | cons a t => exact ⟨a, t, rfl⟩
    obtain ⟨b, t2, hbt⟩ : ∃ b t2, t = b :: t2 := by
      cases t with
      | nil => rw [hat] at hgt; simp at hgt
      | cons b t2 => exact ⟨b, t2, rfl⟩
    unfold getDrsObject
    rw [List.length_eq_zero.mp h0, hat, hbt]

/-- C7 witness: concrete registries exercising each resolver outcome —
a bundle identifier also borne by a file resolves to the bundle, a plain
file resolves to an object, an unknown identifier is NotFound, and
duplicated rows at either step yield the multiplicity error. -/
theorem c7_resolver_amended_witness :
    isBundleResp (getDrsObject "d" "a" ⟨[bundleRowW], [fileRowB1]⟩ "B1") = true ∧
    isObjectResp (getDrsObject "d" "a" ⟨[], [fileRowW]⟩ "F1") = true ∧
    getDrsObject "d" "a" ⟨[], []⟩ "X" = .err "No object found." ∧
    getDrsObject "d" "a" ⟨[bundleRowW, bundleRowW], []⟩ "B1" =
      .err "More than one object found." ∧
    getDrsObject "d" "a" ⟨[], [fileRowW, fileRowW]⟩ "F1" =
      .err "More than one object found." :=
  ⟨(c7_resolver_amended "d" "a" ⟨[bundleRowW], [fileRowB1]⟩ "B1").1 (by decide),
   (c7_resolver_amended "d" "a" ⟨[], [fileRowW]⟩ "F1").2.1 (by decide) (by decide) (by decide),
   (c7_resolver_amended "d" "a" ⟨[], []⟩ "X").2.2.1 (by decide) (by decide),
   (c7_resolver_amended "d" "a" ⟨[bundleRowW, bundleRowW], []⟩ "B1").2.2.2.1 (by decide),
   (c7_resolver_amended "d" "a" ⟨[], [fileRowW, fileRowW]⟩ "F1").2.2.2.2 (by decide) (by decide)⟩

/-- C7 counterexample: an identifier matching no bundle and exactly one
file should, per the claim, resolve to an Object View; with two manifest
rows sharing the file's parent identifier the join returns two rows and
the code answers "More than one object found." instead. -/
theorem c7_counterexample :
    (dupParentRegistry.manifest.filter (fun m => m.hubmap_id == "F1")).length = 0 ∧
    (dupParentRegistry.files.filter (fun f => f.file_uuid == "F1")).length = 1 ∧
    isObjectResp (getDrsObject "d" "a" dupParentRegistry "F1") = false ∧
    getDrsObject "d" "a" dupParentRegistry "F1" = .err "More than one object found." := by
  refine ⟨by decide, by decide, by decide, by decide⟩

/-- A sample upstream dataset descriptor. -/
def datasetDescW : DatasetDesc :=
  { uuid := "u-ds1", hubmap_id := "HBM1", dataset_type := "RNAseq", doi_url := "",
    group_name := "g", published_timestamp := "2024-01-01", dbgap_study_url := "" }

/-- A sample upstream file descriptor belonging to the sample dataset. -/
def fileDescW : FileDesc :=
  { uuid := "fu1", dataset_uuid := "u-ds1", filename := "ns/id/a.txt",
    checksum := "ck", size := 100 }

/-- The empty registry. -/
def emptyRegistry : Registry := { manifest := [], files := [] }

/-- A diff adding one dataset and one file. -/
def diffAddOnly : SyncDiff :=
  { datasetsToAdd := [datasetDescW], filesToAdd := [fileDescW],
    datasetsToDelete := [], filesToDelete := [] }

/-- C1 (code bug): the apply is NOT atomic.  With one dataset and one file
to insert, injecting a failure at the file insert (the second
cursor.execute call) leaves the dataset insert committed: the run ends
in the SyncFailed state but the registry differs from the initial one,
because execute_sync_operations commits after every step and the final
rollback only reverts work since the last commit — even though its error
handler then prints "Changes have been rolled back.". -/
theorem c1_partial_commit_bug :
    executeSyncOperations diffAddOnly [fileDescW] emptyRegistry (some 1) =
      SyncResult.syncFailed
        { manifest := [mkManifestRow [fileDescW] datasetDescW], files := [] } ∧
    ({ manifest := [mkManifestRow [fileDescW] datasetDescW], files := [] } : Registry) ≠
      emptyRegistry := by
  refine ⟨by decide, by decide⟩

/-- Membership in an iterated deletion fold: an element survives exactly
when it was present and no deletion round matches its key. -/
theorem mem_foldl_filter {α β : Type} (key : α → String) (k : β → String)
    (L : List β) (xs : List α) (x : α) :
    x ∈ L.foldl (fun acc b => acc.filter (fun a => key a != k b)) xs ↔
      x ∈ xs ∧ ∀ b ∈ L, key x ≠ k b := by
  induction L generalizing xs with
  | nil => simp
  | cons b bs ih =>
    rw [List.foldl_cons, ih]
    simp only [List.mem_filter, bne_iff_ne, ne_eq, List.mem_cons, decide_not,
      decide_eq_true_eq, Bool.not_eq_true', decide_eq_false_iff_not]
    constructor
    · rintro ⟨⟨hx, hb⟩, hbs⟩
      exact ⟨hx, fun b' hb' => by
        rcases hb' with h | h
        · exact h ▸ hb
        · exact hbs b' h⟩
    · rintro ⟨hx, hall⟩
      exact ⟨⟨hx, hall b (Or.inl rfl)⟩, fun b' hb' => hall b' (Or.inr hb')⟩

/-- C3 (confirmed): after a successful apply, no file row keeps the
hubmap_id of any dataset in datasetsToDelete, and in the issued call
sequence that dataset's file deletion precedes its manifest deletion. -/
theorem c3_dataset_delete : ∀ (diff : SyncDiff) (uuidFiles : List FileDesc) (reg : Registry)
    (d : DrsDatasetRow), d ∈ diff.datasetsToDelete →
    (applySync diff uuidFiles reg).files.filter (fun f => f.hubmap_id == d.hubmap_id) = [] ∧
    List.Sublist
      [SyncOp.deleteFilesByParent d.hubmap_id, SyncOp.deleteManifestByUuid d.uuid]
      (syncOps diff uuidFiles) := by
  intro diff uuidFiles reg d hd
  constructor
  · have hfiles : (applySync diff uuidFiles reg).files =
        diff.datasetsToDelete.foldl
          (fun fs dd => fs.filter (fun g => g.hubmap_id != dd.hubmap_id))
          (step3Delete diff (step2Insert diff (step1Insert diff uuidFiles reg))).files := rfl
    rw [hfiles, List.filter_eq_nil_iff]
    intro f hf
    have hmem := (mem_foldl_filter (fun g => g.hubmap_id) (fun dd => dd.hubmap_id)
      diff.datasetsToDelete _ f).mp hf
    have hne := hmem.2 d hd
    simp only [beq_iff_eq]
    exact hne
  · obtain ⟨s, t, hsplit⟩ := List.append_of_mem hd
    have hne : ¬ diff.datasetsToDelete.isEmpty = true := by
      rw [hsplit]
      simp
    have h1 : List.Sublist
        [SyncOp.deleteFilesByParent d.hubmap_id, SyncOp.deleteManifestByUuid d.uuid]
        (diff.datasetsToDelete.flatMap
          (fun dd => [SyncOp.deleteFilesByParent dd.hubmap_id,
                      SyncOp.deleteManifestByUuid dd.uuid])) := by
      rw [hsplit, List.flatMap_append, List.flatMap_cons]
      exact (List.sublist_append_left _ _).trans (List.sublist_append_right _ _)
    have hD : List.Sublist
        [SyncOp.deleteFilesByParent d.hubmap_id, SyncOp.deleteManifestByUuid d.uuid]
        (diff.datasetsToDelete.flatMap
          (fun dd => [SyncOp.deleteFilesByParent dd.hubmap_id,
                      SyncOp.deleteManifestByUuid dd.uuid]) ++ [SyncOp.commit]) :=
      h1.trans (List.sublist_append_left _ _)
    unfold syncOps
    rw [if_neg hne]
    exact (hD.trans (List.sublist_append_right _ _)).trans (List.sublist_append_left _ _)

/-- A diff that only deletes one dataset. -/
def diffDeleteOnly : SyncDiff :=
  { datasetsToAdd := [], filesToAdd := [],
    datasetsToDelete := [{ uuid := "u-del", hubmap_id := "HB-del" }], filesToDelete := [] }

/-- A registry holding the doomed dataset and one of its files. -/
def regDeleteOnly : Registry :=
  { manifest := [{ bundleRowW with uuid := "u-del", hubmap_id := "HB-del" }],
    files := [{ fileRowW with hubmap_id := "HB-del" }] }

/-- C3 witness: deleting the concrete dataset removes its file rows and
the call trace deletes files before the manifest row. -/
theorem c3_dataset_delete_witness :
    (applySync diffDeleteOnly [] regDeleteOnly).files.filter
      (fun f => f.hubmap_id == "HB-del") = [] ∧
    List.Sublist [SyncOp.deleteFilesByParent "HB-del", SyncOp.deleteManifestByUuid "u-del"]
      (syncOps diffDeleteOnly []) :=
  c3_dataset_delete diffDeleteOnly [] regDeleteOnly
    { uuid := "u-del", hubmap_id := "HB-del" } (by decide)

/-- C2 (corrected): the step-5 recomputation reaches exactly the surviving
bundles that still have at least one child file row (the UPDATE joins on
the files table): for those, number_of_files and pretty_size are set to
the child count and the SQL CASE formatting of the child size sum (units
T, G, M, with K for everything below 2^20 — no B branch — rounded half
away from zero); a surviving bundle with NO child file rows is missed by
the join and keeps whatever values it had after the deletions. -/
theorem c2_aggregates_amended : ∀ (diff : SyncDiff) (uuidFiles : List FileDesc) (reg : Registry),
    (∀ m ∈ (applySync diff uuidFiles reg).manifest,
      (applySync diff uuidFiles reg).files.filter (fun f => f.hubmap_id == m.hubmap_id) ≠ [] →
      m.number_of_files =
        ((applySync diff uuidFiles reg).files.filter
          (fun f => f.hubmap_id == m.hubmap_id)).length ∧
      m.pretty_size =
        mysqlPrettySize (sumFileSizes
          ((applySync diff uuidFiles reg).files.filter
            (fun f => f.hubmap_id == m.hubmap_id)))) ∧
    (∀ m ∈ (applyAddsAndDeletes diff uuidFiles reg).manifest,
      (applySync diff uuidFiles reg).files.filter (fun f => f.hubmap_id == m.hubmap_id) = [] →
      m ∈ (applySync diff uuidFiles reg).manifest) := by
  intro diff uuidFiles reg
  have hfiles : (applySync diff uuidFiles reg).files =
      (applyAddsAndDeletes diff uuidFiles reg).files := rfl
  have hmani : (applySync diff uuidFiles reg).manifest =
      (applyAddsAndDeletes diff uuidFiles reg).manifest.map
        (updateAggregates (applyAddsAndDeletes diff uuidFiles reg).files) := rfl
  constructor
  · intro m hm hne
    rw [hmani] at hm
    obtain ⟨m0, hm0, heq⟩ := List.mem_map.mp hm
    by_cases hc : ((applyAddsAndDeletes diff uuidFiles reg).files.filter
        (fun f => f.hubmap_id == m0.hubmap_id)).isEmpty
    · have hm_eq : m = m0 := by
        rw [← heq]
        unfold updateAggregates
        simp only [hc, if_true]
      rw [hfiles, hm_eq] at hne
      rw [List.isEmpty_iff] at hc
      exact absurd hc hne
    · have hm_eq : m = { m0 with
          pretty_size := mysqlPrettySize (sumFileSizes
            ((applyAddsAndDeletes diff uuidFiles reg).files.filter
              (fun f => f.hubmap_id == m0.hubmap_id)))
          number_of_files := ((applyAddsAndDeletes diff uuidFiles reg).files.filter
            (fun f => f.hubmap_id == m0.hubmap_id)).length } := by
        rw [← heq]
        unfold updateAggregates
        simp only [hc, if_false, Bool.false_eq_true]
      have hhid : m.hubmap_id = m0.hubmap_id := by rw [hm_eq]
      rw [hfiles, hhid]
      rw [hm_eq]
      exact ⟨rfl, rfl⟩
  · intro m hm hnil
    rw [hfiles] at hnil
    rw [hmani]
    refine List.mem_map.mpr ⟨m, hm, ?_⟩
    unfold updateAggregates
    rw [hnil]
    simp

/-- The empty diff. -/
def emptyDiff : SyncDiff :=
  { datasetsToAdd := [], filesToAdd := [], datasetsToDelete := [], filesToDelete := [] }

/-- A registry whose single bundle has stale aggregate fields. -/
def regAgg : Registry :=
  { manifest := [{ bundleRowW with
      hubmap_id := "HB1"
      number_of_files := 5
      pretty_size := "9.9T" }]
    files := [{ fileRowW with hubmap_id := "HB1", size := 100 }] }

/-- The bundle row regAgg should hold after step 5 repairs it. -/
def rowAggFixed : ManifestRow :=
  { bundleRowW with
    hubmap_id := "HB1"
    number_of_files := 1
    pretty_size := "0.1K" }

/-- C2 witness: applying the empty diff to the stale registry repairs the
aggregates of its (one-child) bundle to the recomputed values. -/
theorem c2_aggregates_amended_witness :
    rowAggFixed.number_of_files =
      ((applySync emptyDiff [] regAgg).files.filter
        (fun f => f.hubmap_id == rowAggFixed.hubmap_id)).length ∧
    rowAggFixed.pretty_size =
      mysqlPrettySize (sumFileSizes
        ((applySync emptyDiff [] regAgg).files.filter
          (fun f => f.hubmap_id == rowAggFixed.hubmap_id))) :=
  (c2_aggregates_amended emptyDiff [] regAgg).1 rowAggFixed (by decide) (by decide)

/-- A registry whose bundle loses its only file this run. -/
def regZero : Registry :=
  { manifest := [{ bundleRowW with
      hubmap_id := "HBZ"
      number_of_files := 3
      pretty_size := "3.0K" }]
    files := [{ fileRowW with hubmap_id := "HBZ", file_uuid := "FZ" }] }

/-- The diff deleting that bundle's only file. -/
def diffZero : SyncDiff :=
  { datasetsToAdd := [], filesToAdd := [], datasetsToDelete := [],
    filesToDelete := [{ hubmap_id := "HBZ", file_id := "FZ", file_name := "n" }] }

/-- C2 counterexample: after the apply the surviving bundle has zero
child file rows, so the claim demands fileCount 0 and prettySize
format(0) = "0B"; the inner join skips it and it keeps the stale count 3
and prettySize "3.0K". -/
theorem c2_counterexample :
    (applySync diffZero [] regZero).files = [] ∧
    (applySync diffZero [] regZero).manifest.map (fun m => m.number_of_files) = [3] ∧
    (applySync diffZero [] regZero).manifest.map (fun m => m.pretty_size) = ["3.0K"] ∧
    pythonPrettySize 0 = "0B" ∧ (3 : Nat) ≠ 0 := by
  refine ⟨by decide, by decide, by decide, by decide, by decide⟩

/-- C10 (confirmed): when the dataset-catalog fetch fails (modelled as
none, since a request error yields an empty frame) or returns no
datasets, run_sync aborts before computing any diff or touching the
registry: the registry is returned unchanged with the aborted outcome,
so a total upstream outage never schedules deletions. -/
theorem c10_empty_fetch_aborts : ∀ (fetchResult : Option (List DatasetDesc))
    (uuidFiles : List FileDesc) (reg : Registry) (execute : Bool),
    fetchResult = none ∨ fetchResult = some [] →
    runSync fetchResult uuidFiles reg execute = (reg, RunOutcome.aborted) := by
  intro fr uf reg ex h
  rcases h with h | h <;> subst h <;> rfl

/-- C10 witness: both a failed fetch and an empty catalog abort an
execute-mode run against a non-empty registry, leaving it unchanged. -/
theorem c10_empty_fetch_aborts_witness :
    runSync none [fileDescW] regAgg true = (regAgg, RunOutcome.aborted) ∧
    runSync (some []) [fileDescW] regAgg true = (regAgg, RunOutcome.aborted) :=
  ⟨c10_empty_fetch_aborts none [fileDescW] regAgg true (Or.inl rfl),
   c10_empty_fetch_aborts (some []) [fileDescW] regAgg true (Or.inr rfl)⟩

/-- The aggregate update never changes a row's uuid. -/
theorem updateAggregates_uuid (fs : List FileRow) (m : ManifestRow) :
    (updateAggregates fs m).uuid = m.uuid := by
  unfold updateAggregates
  by_cases h : (fs.filter (fun f => f.hubmap_id == m.hubmap_id)).isEmpty <;> simp [h]

/-- The aggregate update never changes a row's hubmap_id. -/
theorem updateAggregates_hubmap (fs : List FileRow) (m : ManifestRow) :
    (updateAggregates fs m).hubmap_id = m.hubmap_id := by
  unfold updateAggregates
  by_cases h : (fs.filter (fun f => f.hubmap_id == m.hubmap_id)).isEmpty <;> simp [h]

/-- The diff run_sync computes from the live registry. -/
def firstDiff (search : List DatasetDesc) (uuidFiles : List FileDesc) (reg : Registry) : SyncDiff :=
  compareAndIdentifyMissing search uuidFiles (drsDatasetsOf reg) (drsFilesOf reg)

/-- The registry after applying that diff. -/
def afterFirstRun (search : List DatasetDesc) (uuidFiles : List FileDesc)
    (reg : Registry) : Registry :=
  applySync (firstDiff search uuidFiles reg) uuidFiles reg

/-- The diff a second run computes with the upstream catalogs unchanged. -/
def secondDiff (search : List DatasetDesc) (uuidFiles : List FileDesc)
    (reg : Registry) : SyncDiff :=
  compareAndIdentifyMissing search uuidFiles
    (drsDatasetsOf (afterFirstRun search uuidFiles reg))
    (drsFilesOf (afterFirstRun search uuidFiles reg))

/-- C9 (corrected): reconciliation is idempotent PROVIDED no file record
that is still present upstream sits under a parent hubmap_id belonging
to a dataset being deleted — both for pre-existing rows (first
hypothesis) and for rows inserted this run, whose parent column receives
the upstream dataset uuid (second hypothesis).  Without the proviso,
deleting a dataset collaterally removes a still-upstream file row, which
the second run re-adds.  Under it, a second run with unchanged upstream
catalogs computes four empty sets. -/
theorem c9_idempotent_amended :
    ∀ (search : List DatasetDesc) (uuidFiles : List FileDesc) (reg : Registry),
    (∀ g ∈ reg.files, uuidFiles.any (fun f => f.uuid == g.file_uuid) = true →
      ∀ dd ∈ (firstDiff search uuidFiles reg).datasetsToDelete, g.hubmap_id ≠ dd.hubmap_id) →
    (∀ f ∈ uuidFiles, ∀ dd ∈ (firstDiff search uuidFiles reg).datasetsToDelete,
      f.dataset_uuid ≠ dd.hubmap_id) →
    (secondDiff search uuidFiles reg).datasetsToAdd = [] ∧
    (secondDiff search uuidFiles reg).datasetsToDelete = [] ∧
    (secondDiff search uuidFiles reg).filesToAdd = [] ∧
    (secondDiff search uuidFiles reg).filesToDelete = [] := by
  intro search uuidFiles reg H1 H2
  have hfiles1 : ∀ g, g ∈ (afterFirstRun search uuidFiles reg).files ↔
      (g ∈ reg.files ∨ g ∈ (firstDiff search uuidFiles reg).filesToAdd.map mkFileRow) ∧
      (∀ r ∈ (firstDiff search uuidFiles reg).filesToDelete, g.file_uuid ≠ r.file_id) ∧
      (∀ dd ∈ (firstDiff search uuidFiles reg).datasetsToDelete,
        g.hubmap_id ≠ dd.hubmap_id) := by
    intro g
    constructor
    · intro hg
      have h4 := (mem_foldl_filter (fun x : FileRow => x.hubmap_id)
        (fun dd : DrsDatasetRow => dd.hubmap_id)
        (firstDiff search uuidFiles reg).datasetsToDelete _ g).mp hg
      have h3 := (mem_foldl_filter (fun x : FileRow => x.file_uuid)
        (fun r : DrsFileRow => r.file_id)
        (firstDiff search uuidFiles reg).filesToDelete _ g).mp h4.1
      exact ⟨List.mem_append.mp h3.1, h3.2, h4.2⟩
    · rintro ⟨hbase, h3, h4⟩
      exact (mem_foldl_filter (fun x : FileRow => x.hubmap_id)
        (fun dd : DrsDatasetRow => dd.hubmap_id)
        (firstDiff search uuidFiles reg).datasetsToDelete _ g).mpr
        ⟨(mem_foldl_filter (fun x : FileRow => x.file_uuid)
          (fun r : DrsFileRow => r.file_id)
          (firstDiff search uuidFiles reg).filesToDelete _ g).mpr
          ⟨List.mem_append.mpr hbase, h3⟩, h4⟩
  have hmani1 : ∀ m, m ∈ (afterFirstRun search uuidFiles reg).manifest ↔
      ∃ m0, (m0 ∈ reg.manifest ∨
          m0 ∈ (firstDiff search uuidFiles reg).datasetsToAdd.map (mkManifestRow uuidFiles)) ∧
        (∀ dd ∈ (firstDiff search uuidFiles reg).datasetsToDelete, m0.uuid ≠ dd.uuid) ∧
        m = updateAggregates (afterFirstRun search uuidFiles reg).files m0 := by
    intro m
    constructor
    · intro hm
      obtain ⟨m0, hm0, heq⟩ := List.mem_map.mp hm
      have h4 := (mem_foldl_filter (fun x : ManifestRow => x.uuid)
        (fun dd : DrsDatasetRow => dd.uuid)
        (firstDiff search uuidFiles reg).datasetsToDelete _ m0).mp hm0
      exact ⟨m0, List.mem_append.mp h4.1, h4.2, heq.symm⟩
    · rintro ⟨m0, hbase, hdel, heq⟩
      refine List.mem_map.mpr ⟨m0, ?_, heq.symm⟩
      exact (mem_foldl_filter (fun x : ManifestRow => x.uuid)
        (fun dd : DrsDatasetRow => dd.uuid)
        (firstDiff search uuidFiles reg).datasetsToDelete _ m0).mpr
        ⟨List.mem_append.mpr hbase, hdel⟩
  refine ⟨?_, ?_, ?_, ?_⟩
  · -- second-run datasetsToAdd is empty
    show search.filter (fun d =>
      !((drsDatasetsOf (afterFirstRun search uuidFiles reg)).any
        (fun r => r.uuid == d.uuid))) = []
    rw [List.filter_eq_nil_iff]
    intro d hd
    have hex : ∃ m ∈ (afterFirstRun search uuidFiles reg).manifest, m.uuid = d.uuid := by
      by_cases hc : ∃ m0 ∈ reg.manifest, m0.uuid = d.uuid
      · obtain ⟨m0, hm0, hm0u⟩ := hc
        have hdel : ∀ dd ∈ (firstDiff search uuidFiles reg).datasetsToDelete,
            m0.uuid ≠ dd.uuid := by
          intro dd hdd heq
          have hdd' := List.mem_filter.mp hdd
          have hnone : search.any (fun d' => d'.uuid == dd.uuid) = false := by
            simpa using hdd'.2
          have htrue : search.any (fun d' => d'.uuid == dd.uuid) = true := by
            rw [List.any_eq_true]
            exact ⟨d, hd, by simp [← heq, hm0u]⟩
          rw [hnone] at htrue
          exact absurd htrue (by simp)
        refine ⟨updateAggregates (afterFirstRun search uuidFiles reg).files m0,
          (hmani1 _).mpr ⟨m0, Or.inl hm0, hdel, rfl⟩, ?_⟩
        rw [updateAggregates_uuid]
        exact hm0u
      · have hnotany : (drsDatasetsOf reg).any (fun r => r.uuid == d.uuid) = false := by
          rcases Bool.eq_false_or_eq_true
            ((drsDatasetsOf reg).any (fun r => r.uuid == d.uuid)) with hb | hb
          case inr => exact hb
          case inl =>
            exfalso
            rw [List.any_eq_true] at hb
            obtain ⟨r, hr, hru⟩ := hb
            obtain ⟨m0, hm0, hm0r⟩ := List.mem_map.mp hr
            refine hc ⟨m0, hm0, ?_⟩
            rw [← hm0r] at hru
            simpa using hru
        have hdAdd : d ∈ (firstDiff search uuidFiles reg).datasetsToAdd :=
          List.mem_filter.mpr ⟨hd, by rw [hnotany]; rfl⟩
        have hdel : ∀ dd ∈ (firstDiff search uuidFiles reg).datasetsToDelete,
            (mkManifestRow uuidFiles d).uuid ≠ dd.uuid := by
          intro dd hdd heq
          have hdd' := List.mem_filter.mp hdd
          have hnone : search.any (fun d' => d'.uuid == dd.uuid) = false := by
            simpa using hdd'.2
          have htrue : search.any (fun d' => d'.uuid == dd.uuid) = true := by
            rw [List.any_eq_true]
            refine ⟨d, hd, ?_⟩
            rw [← heq]
            simp [mkManifestRow]
          rw [hnone] at htrue
          exact absurd htrue (by simp)
        refine ⟨updateAggregates (afterFirstRun search uuidFiles reg).files
          (mkManifestRow uuidFiles d),
          (hmani1 _).mpr ⟨mkManifestRow uuidFiles d,
            Or.inr (List.mem_map_of_mem _ hdAdd), hdel, rfl⟩, ?_⟩
        rw [updateAggregates_uuid]
        rfl
    obtain ⟨m, hm, hmu⟩ := hex
    have hany : (drsDatasetsOf (afterFirstRun search uuidFiles reg)).any
        (fun r => r.uuid == d.uuid) = true := by
      rw [List.any_eq_true]
      exact ⟨{ uuid := m.uuid, hubmap_id := m.hubmap_id },
        List.mem_map.mpr ⟨m, hm, rfl⟩, by simp [hmu]⟩
    simp [hany]
  · -- second-run datasetsToDelete is empty
    show (drsDatasetsOf (afterFirstRun search uuidFiles reg)).filter
      (fun r => !(search.any (fun d => d.uuid == r.uuid))) = []
    rw [List.filter_eq_nil_iff]
    intro r hr
    obtain ⟨m, hm, hmr⟩ := List.mem_map.mp hr
    obtain ⟨m0, hbase, hdel, hmeq⟩ := (hmani1 m).mp hm
    have hmu : r.uuid = m0.uuid := by
      rw [← hmr, hmeq, updateAggregates_uuid]
    have hany : search.any (fun d => d.uuid == r.uuid) = true := by
      rcases hbase with hold | hadd
      · rcases Bool.eq_false_or_eq_true (search.any (fun d => d.uuid == r.uuid)) with hb | hb
        case inl => exact hb
        case inr =>
          exfalso
          have hr0 : ({ uuid := m0.uuid, hubmap_id := m0.hubmap_id } : DrsDatasetRow) ∈
              (firstDiff search uuidFiles reg).datasetsToDelete := by
            refine List.mem_filter.mpr ⟨List.mem_map.mpr ⟨m0, hold, rfl⟩, ?_⟩
            rw [hmu] at hb
            simp [hb]
          exact hdel _ hr0 rfl
      · obtain ⟨da, hda, hdaeq⟩ := List.mem_map.mp hadd
        have hdsearch : da ∈ search := (List.mem_filter.mp hda).1
        rw [List.any_eq_true]
        refine ⟨da, hdsearch, ?_⟩
        rw [hmu, ← hdaeq]
        simp [mkManifestRow]
    simp [hany]
  · -- second-run filesToAdd is empty
    show uuidFiles.filter (fun f =>
      !((drsFilesOf (afterFirstRun search uuidFiles reg)).any
        (fun r => r.file_id == f.uuid))) = []
    rw [List.filter_eq_nil_iff]
    intro f hf
    have hex : ∃ g ∈ (afterFirstRun search uuidFiles reg).files, g.file_uuid = f.uuid := by
      by_cases hc : ∃ g ∈ reg.files, g.file_uuid = f.uuid
      · obtain ⟨g, hg, hgu⟩ := hc
        have hkeep3 : ∀ r ∈ (firstDiff search uuidFiles reg).filesToDelete,
            g.file_uuid ≠ r.file_id := by
          intro r hr heq
          have hr' := List.mem_filter.mp hr
          have hnone : uuidFiles.any (fun f' => f'.uuid == r.file_id) = false := by
            simpa using hr'.2
          have htrue : uuidFiles.any (fun f' => f'.uuid == r.file_id) = true := by
            rw [List.any_eq_true]
            exact ⟨f, hf, by simp [← heq, hgu]⟩
          rw [hnone] at htrue
          exact absurd htrue (by simp)
        have hkeep4 : ∀ dd ∈ (firstDiff search uuidFiles reg).datasetsToDelete,
            g.hubmap_id ≠ dd.hubmap_id := by
          refine H1 g hg ?_
          rw [List.any_eq_true]
          exact ⟨f, hf, by simp [hgu]⟩
        exact ⟨g, (hfiles1 g).mpr ⟨Or.inl hg, hkeep3, hkeep4⟩, hgu⟩
      · have hnotany : (drsFilesOf reg).any (fun r => r.file_id == f.uuid) = false := by
          rcases Bool.eq_false_or_eq_true
            ((drsFilesOf reg).any (fun r => r.file_id == f.uuid)) with hb | hb
          case inr => exact hb
          case inl =>
            exfalso
            rw [List.any_eq_true] at hb
            obtain ⟨r, hr, hru⟩ := hb
            obtain ⟨g, hg, hgr⟩ := List.mem_map.mp hr
            refine hc ⟨g, hg, ?_⟩
            rw [← hgr] at hru
            simpa using hru
        have hfAdd : f ∈ (firstDiff search uuidFiles reg).filesToAdd :=
          List.mem_filter.mpr ⟨hf, by rw [hnotany]; rfl⟩
        have hkeep3 : ∀ r ∈ (firstDiff search uuidFiles reg).filesToDelete,
            (mkFileRow f).file_uuid ≠ r.file_id := by
          intro r hr heq
          have hr' := List.mem_filter.mp hr
          have hnone : uuidFiles.any (fun f' => f'.uuid == r.file_id) = false := by
            simpa using hr'.2
          have htrue : uuidFiles.any (fun f' => f'.uuid == r.file_id) = true := by
            rw [List.any_eq_true]
            refine ⟨f, hf, ?_⟩
            rw [← heq]
            simp [mkFileRow]
          rw [hnone] at htrue
          exact absurd htrue (by simp)
        have hkeep4 : ∀ dd ∈ (firstDiff search uuidFiles reg).datasetsToDelete,
            (mkFileRow f).hubmap_id ≠ dd.hubmap_id := fun dd hdd => H2 f hf dd hdd
        exact ⟨mkFileRow f,
          (hfiles1 _).mpr ⟨Or.inr (List.mem_map_of_mem _ hfAdd), hkeep3, hkeep4⟩, rfl⟩
    obtain ⟨g, hg, hgu⟩ := hex
    have hany : (drsFilesOf (afterFirstRun search uuidFiles reg)).any
        (fun r => r.file_id == f.uuid) = true := by
      rw [List.any_eq_true]
      exact ⟨{ hubmap_id := g.hubmap_id, file_id := g.file_uuid, file_name := g.name },
        List.mem_map.mpr ⟨g, hg, rfl⟩, by simp [hgu]⟩
    simp [hany]
  · -- second-run filesToDelete is empty
    show (drsFilesOf (afterFirstRun search uuidFiles reg)).filter
      (fun r => !(uuidFiles.any (fun f => f.uuid == r.file_id))) = []
    rw [List.filter_eq_nil_iff]
    intro r hr
    obtain ⟨g, hg, hgr⟩ := List.mem_map.mp hr
    obtain ⟨hbase, hk3, _⟩ := (hfiles1 g).mp hg
    have hru : r.file_id = g.file_uuid := by rw [← hgr]
    have hany : uuidFiles.any (fun f => f.uuid == r.file_id) = true := by
      rcases hbase with hold | hadd
      · rcases Bool.eq_false_or_eq_true
          (uuidFiles.any (fun f => f.uuid == r.file_id)) with hb | hb
        case inl => exact hb
        case inr =>
          exfalso
          have hr0 : ({ hubmap_id := g.hubmap_id, file_id := g.file_uuid, file_name := g.name } : DrsFileRow) ∈
              (firstDiff search uuidFiles reg).filesToDelete := by
            refine List.mem_filter.mpr ⟨List.mem_map.mpr ⟨g, hold, rfl⟩, ?_⟩
            rw [hru] at hb
            simp [hb]
          exact hk3 _ hr0 rfl
      · obtain ⟨fd, hfd, hfdeq⟩ := List.mem_map.mp hadd
        have hfdu : fd ∈ uuidFiles := (List.mem_filter.mp hfd).1
        rw [List.any_eq_true]
        refine ⟨fd, hfdu, ?_⟩
        rw [hru, ← hfdeq]
        simp [mkFileRow]
    simp [hany]

/-- C9 witness: syncing one upstream dataset with one file into an empty
registry and diffing again yields four empty sets. -/
theorem c9_idempotent_amended_witness :
    (secondDiff [datasetDescW] [fileDescW] emptyRegistry).datasetsToAdd = [] ∧
    (secondDiff [datasetDescW] [fileDescW] emptyRegistry).datasetsToDelete = [] ∧
    (secondDiff [datasetDescW] [fileDescW] emptyRegistry).filesToAdd = [] ∧
    (secondDiff [datasetDescW] [fileDescW] emptyRegistry).filesToDelete = [] :=
  c9_idempotent_amended [datasetDescW] [fileDescW] emptyRegistry (by decide) (by decide)

/-- The upstream dataset of the idempotence counterexample. -/
def dsE : DatasetDesc :=
  { uuid := "uE", hubmap_id := "HE", dataset_type := "t", doi_url := "",
    group_name := "g", published_timestamp := "2024-01-01", dbgap_study_url := "" }

/-- The upstream file of the idempotence counterexample, under dataset
uE and already present in the registry. -/
def fdF : FileDesc :=
  { uuid := "F", dataset_uuid := "uE", filename := "a/b/c", checksum := "k", size := 1 }

/-- A registry where the still-upstream file F is stored under the stale
bundle HD, which the first run deletes. -/
def regCross : Registry :=
  { manifest := [{ bundleRowW with uuid := "uE", hubmap_id := "HE" },
                 { bundleRowW with uuid := "uD", hubmap_id := "HD" }]
    files := [{ fileRowW with file_uuid := "F", hubmap_id := "HD" }] }

/-- C9 counterexample: the first run's diff is empty except for deleting
the stale dataset uD, but deleting uD collaterally removes the
still-upstream file F (stored under HD); the second run therefore
re-adds F, so its filesToAdd is not empty and the claimed idempotence
fails. -/
theorem c9_counterexample :
    (firstDiff [dsE] [fdF] regCross).filesToAdd = [] ∧
    (firstDiff [dsE] [fdF] regCross).filesToDelete = [] ∧
    (secondDiff [dsE] [fdF] regCross).filesToAdd = [fdF] ∧
    (secondDiff [dsE] [fdF] regCross).filesToAdd ≠ [] := by
  refine ⟨by decide, by decide, by decide, by decide⟩
